import Mathlib

/-!
Verification of the spyglass intermediary-generation engine
(`spyglass/parser/engine.py`, class `ProcessDataSource`).

The embedding models:
* `netaddr.IPNetwork` and its full ordered address list (`list(subnet)`);
* the per-network offset resolution performed by `_apply_rule_ip_alloc_offset`;
* the network-subnet extraction `_get_network_subnets`;
* the genesis-node scan `_get_genesis_node_details` (including Python's
  reference/aliasing semantics for `self.genesis_node = rack_hosts[host]`);
* the rule dispatcher `_apply_design_rules` with its `getattr`-based handler
  lookup.

Python dictionaries are modelled as association lists kept in insertion
order; dictionary assignment is `setKey` (replace in place or append).
Fallible operations (indexing, key lookup, attribute lookup) return
`Option`/`Except`.  IP addresses are natural numbers; `str(ip)` is
abstracted by the injective constructor `Value.addr`.
-/

/-- Model of `netaddr.IPNetwork`: a CIDR block given by its network (base)
address and mask length.  `list(subnet)` enumerates `2 ^ (32 - maskBits)`
addresses starting at the base address. -/
structure IPNetwork where
  base : Nat
  maskBits : Nat
deriving DecidableEq

/-- Number of addresses in the block, `len(list(subnet))`. -/
def IPNetwork.numAddrs (s : IPNetwork) : Nat := 2 ^ (32 - s.maskBits)

/-- The ordered address list `ips = list(subnet)` (network address first). -/
def subnetIps (s : IPNetwork) : List Nat := (List.range s.numAddrs).map (s.base + ·)

/-- Values stored in the YAML-like documents the engine manipulates. -/
inductive Value where
  | str : String → Value
  | addr : Nat → Value
  | net : IPNetwork → Value
  | netList : List IPNetwork → Value
  | strList : List String → Value
deriving DecidableEq

/-- The `ip_alloc_offset` rule payload from `rules.yaml` (engine.py lines
172-179): `default`, `oob`, `gateway`, `ingress_vip`, `static_ip_end`,
`dhcp_ip_end`, all non-negative integers. -/
structure Offsets where
  default : Nat
  oob : Nat
  gateway : Nat
  ingress_vip : Nat
  static_ip_end : Nat
  dhcp_ip_end : Nat
deriving DecidableEq

/-- Python dictionary assignment `d[k] = v` on an insertion-ordered
association list: replace in place if the key exists, else append. -/
def setKey {β : Type} : List (String × β) → String → β → List (String × β)
  | [], k, v => [(k, v)]
  | (k', v') :: rest, k, v =>
    if k' = k then (k, v) :: rest else (k', v') :: setKey rest k v

/-- Fields computed only for the `pxe` network type (engine.py lines
218-225): the address list is split at `mid = len(ips) // 2`; `static_end`
is overridden to `ips[mid - 1]` and `dhcp_start`/`dhcp_end` are produced.
For any other type the general `static_end` (`ips[static_ip_end]`) is kept
and no dhcp fields are produced. -/
def pxeFields (o : Offsets) (netType : String) (ips : List Nat) (seGen : Nat) :
    Option (List (String × Value) × Nat) :=
  if netType = "pxe" then
    (ips[ips.length / 2 - 1]?).bind fun se =>
    (ips[ips.length / 2]?).bind fun ds =>
    (ips[o.dhcp_ip_end]?).bind fun de =>
    some ([("dhcp_start", Value.addr ds), ("dhcp_end", Value.addr de)], se)
  else some ([], seGen)

/-- The `vlan` pass-through (engine.py lines 230-233): no vlan for the
`oob` network; every other type copies `vlan` from the pre-resolution
entry (a missing key is a fatal `KeyError`, hence `none`). -/
def vlanField (netType : String) (preEntry : List (String × Value)) :
    Option (List (String × Value)) :=
  if netType = "oob" then some []
  else (preEntry.lookup "vlan").map fun v => [("vlan", v)]

/-- The body of the per-network loop of `_apply_rule_ip_alloc_offset`
(engine.py lines 197-244): builds the fresh post-resolution entry for one
non-ingress network type.  `ipOffset` is the `oob` offset for the `oob`
type and the `default` offset otherwise; field insertion order matches the
Python dictionary assignments. -/
def resolveEntry (o : Offsets) (netType : String) (subnet : IPNetwork)
    (preEntry : List (String × Value)) : Option (List (String × Value)) :=
  let ips := subnetIps subnet
  let ipOffset := if netType = "oob" then o.oob else o.default
  (ips[o.gateway]?).bind fun gw =>
  (ips[1]?).bind fun rs =>
  (ips[ipOffset]?).bind fun re =>
  (ips[ipOffset + 1]?).bind fun ss =>
  (ips[o.static_ip_end]?).bind fun seGen =>
  (pxeFields o netType ips seGen).bind fun pf =>
  (vlanField netType preEntry).bind fun vf =>
  some ([("network", Value.net subnet), ("gateway", Value.addr gw),
         ("reserved_start", Value.addr rs), ("reserved_end", Value.addr re)] ++
        pf.1 ++
        [("static_start", Value.addr ss), ("static_end", Value.addr pf.2)] ++
        vf ++
        [("routes", Value.strList (if netType = "oam" then ["0.0.0.0/0"] else []))])

/-- `_get_network_subnets` (engine.py lines 54-67): every network type
except `ingress` contributes `netaddr.IPNetwork(entry['subnet'])`, in
iteration order.  A missing or non-CIDR `subnet` value is fatal. -/
def getNetworkSubnets : List (String × List (String × Value)) →
    Option (List (String × IPNetwork))
  | [] => some []
  | (t, e) :: rest =>
    if t = "ingress" then getNetworkSubnets rest
    else
      match e.lookup "subnet" with
      | some (Value.net s) => (getNetworkSubnets rest).map fun r => (t, s) :: r
      | _ => none

/-- The stateful per-type loop of `_apply_rule_ip_alloc_offset` (engine.py
lines 197-244): each network type's entry in `vlan_network_data` is
replaced by its freshly resolved entry. -/
def applyLoop (o : Offsets) : List (String × IPNetwork) →
    List (String × List (String × Value)) →
    Option (List (String × List (String × Value)))
  | [], vnd => some vnd
  | (t, s) :: rest, vnd =>
    (vnd.lookup t).bind fun pre =>
    (resolveEntry o t s pre).bind fun e =>
    applyLoop o rest (setKey vnd t e)

/-- The Network Block: `vlan_network_data` (network type → entry) and
`bgp`. -/
structure NetworkData where
  vlanNetworkData : List (String × List (String × Value))
  bgp : List (String × Value)
deriving DecidableEq

/-- `_apply_rule_ip_alloc_offset` (engine.py lines 161-247): first the BGP
ingress computation from the first subnet of the `ingress` network's
subnet sequence (lines 181-191), then the per-type loop over
`_get_network_subnets`. -/
def applyRuleIpAllocOffset (o : Offsets) (nd : NetworkData) : Option NetworkData :=
  (nd.vlanNetworkData.lookup "ingress").bind fun ingressEntry =>
  (ingressEntry.lookup "subnet").bind fun sv =>
  (match sv with
   | Value.netList l => l[0]?
   | _ => none).bind fun s0 =>
  ((subnetIps s0)[o.ingress_vip]?).bind fun vip =>
  let bgpNew := setKey (setKey nd.bgp "ingress_vip" (Value.addr vip))
      "public_service_cidr" (Value.net s0)
  (getNetworkSubnets nd.vlanNetworkData).bind fun subs =>
  (applyLoop o subs nd.vlanNetworkData).bind fun vnd =>
  some { vlanNetworkData := vnd, bgp := bgpNew }

/-- Host attribute mapping (attribute name → string value). -/
abbrev Host := List (String × String)

/-- One rack: host name → host attributes, in iteration order. -/
abbrev RackHosts := List (String × Host)

/-- The Baremetal Block: rack name → rack, in iteration order. -/
abbrev Baremetal := List (String × RackHosts)

/-- Inner loop of `_get_genesis_node_details` (engine.py lines 74-77) over
one rack.  On `rack_hosts[host]['type'] == 'genesis'` the code sets
`self.genesis_node = rack_hosts[host]` (an alias, not a copy) and then
`self.genesis_node['name'] = host`, which therefore also injects `name`
into the host's entry inside the rack.  Returns the rack after the scan
and the genesis candidate of this rack (later hosts overwrite earlier
ones).  A host without a `type` attribute is a fatal `KeyError`. -/
def processRack : RackHosts → Option (RackHosts × Option Host)
  | [] => some ([], none)
  | (k, h) :: rest =>
    (h.lookup "type").bind fun t =>
    (processRack rest).bind fun pr =>
    some ((k, if t = "genesis" then setKey h "name" k else h) :: pr.1,
          pr.2.or (if t = "genesis" then some (setKey h "name" k) else none))

/-- `_get_genesis_node_details` (engine.py lines 69-80): scans every rack,
then every host; the recorded genesis node is overwritten on each match,
so the last match in iteration order wins.  Returns the (possibly
mutated) baremetal block and the recorded genesis node (`none` when no
host matched — not fatal). -/
def getGenesisNodeDetails : Baremetal → Option (Baremetal × Option Host)
  | [] => some ([], none)
  | (rk, hs) :: rest =>
    (processRack hs).bind fun pr =>
    (getGenesisNodeDetails rest).bind fun gr =>
    some ((rk, pr.1) :: gr.1, gr.2.or pr.2)

/-- Boolean test `rack_hosts[host]['type'] == 'genesis'` on a keyed host. -/
def genesisHostPred (p : String × Host) : Bool := p.2.lookup "type" == some "genesis"

/-- The last host in iteration order (over all racks, then hosts) whose
`type` is `genesis`, with the `name` field injected. -/
def genesisSpec (bm : Baremetal) : Option Host :=
  (((bm.map Prod.snd).flatten).reverse.find? genesisHostPred).map fun p =>
    setKey p.2 "name" p.1

/-- Effect of the genesis scan on one keyed host entry: a matching host
gains `name = key`, any other host is unchanged. -/
def updHost (p : String × Host) : String × Host :=
  (p.1, if p.2.lookup "type" = some "genesis" then setKey p.2 "name" p.1 else p.2)

/-- The baremetal block after the genesis scan: every matching host entry
has `name` injected (Python aliasing), everything else is unchanged. -/
def bmMap (bm : Baremetal) : Baremetal := bm.map fun r => (r.1, r.2.map updHost)

/-- Every host of the block carries a `type` attribute (the schema-side
invariant under which the genesis scan cannot raise). -/
def allTyped (bm : Baremetal) : Prop :=
  ∀ r ∈ bm, ∀ p ∈ r.2, (List.lookup "type" p.2).isSome

instance (bm : Baremetal) : Decidable (allTyped bm) := by
  unfold allTyped; infer_instance

/-- One rule entry of `rules.yaml` (engine.py lines 147-152): its `name`
and the nested payload stored under that same name (abstracted here to the
offset payload, the only payload a registered handler reads). -/
structure RuleDef where
  name : String
  payload : Offsets
deriving DecidableEq

/-- The handler registry realised by `getattr(self, "_apply_rule_" + name)`
(engine.py lines 149-151, 155-161): `host_profile_interfaces` and
`hardware_profile` are no-op placeholders, `ip_alloc_offset` is the offset
resolver; any other name has no handler (fatal `AttributeError`). -/
def getHandler : String → Option (Offsets → NetworkData → Option NetworkData)
  | "host_profile_interfaces" => some fun _ d => some d
  | "hardware_profile" => some fun _ d => some d
  | "ip_alloc_offset" => some fun o d => applyRuleIpAllocOffset o d
  | _ => none

/-- `_apply_design_rules` (engine.py lines 130-153): iterate the rule
collection in order; for each entry resolve the handler by name and apply
it.  An unregistered name, or a handler failure, aborts the run. -/
def applyDesignRules : List (String × RuleDef) → NetworkData → Except String NetworkData
  | [], d => Except.ok d
  | (_, r) :: rest, d =>
    match getHandler r.name with
    | none => Except.error ("ProcessDataSource has no attribute _apply_rule_" ++ r.name)
    | some f =>
      match f r.payload d with
      | none => Except.error ("rule handler " ++ r.name ++ " raised")
      | some d2 => applyDesignRules rest d2

/-- Sequential in-order application of all handlers (the intended loop of
`_apply_design_rules`), as a monadic left fold. -/
def runHandlers (rules : List (String × RuleDef)) (d : NetworkData) : Option NetworkData :=
  rules.foldlM (fun d r => (getHandler r.2.name).bind fun f => f r.2.payload d) d
/-- Concrete test subnet `192.168.10.0/28` (16 addresses). -/
def subW : IPNetwork := ⟨3232238080, 28⟩

/-- Concrete ingress subnet `10.0.0.0/28`. -/
def subI : IPNetwork := ⟨167772160, 28⟩

/-- Concrete offsets: default 5, oob 3, gateway 1, ingress_vip 2,
static_ip_end 9, dhcp_ip_end 12. -/
def offW : Offsets := ⟨5, 3, 1, 2, 9, 12⟩

/-- Concrete pre-resolution network entry over `subW` with vlan 23. -/
def preW : List (String × Value) := [("subnet", Value.net subW), ("vlan", Value.str "23")]

/-- Resolved entry for a general (storage) network over `subW` with `offW`. -/
def eW : List (String × Value) :=
  [("network", Value.net subW), ("gateway", Value.addr 3232238081),
   ("reserved_start", Value.addr 3232238081), ("reserved_end", Value.addr 3232238085),
   ("static_start", Value.addr 3232238086), ("static_end", Value.addr 3232238089),
   ("vlan", Value.str "23"), ("routes", Value.strList [])]

/-- Resolved entry for the `pxe` network over `subW` with `offW`. -/
def ePxeW : List (String × Value) :=
  [("network", Value.net subW), ("gateway", Value.addr 3232238081),
   ("reserved_start", Value.addr 3232238081), ("reserved_end", Value.addr 3232238085),
   ("dhcp_start", Value.addr 3232238088), ("dhcp_end", Value.addr 3232238092),
   ("static_start", Value.addr 3232238086), ("static_end", Value.addr 3232238087),
   ("vlan", Value.str "23"), ("routes", Value.strList [])]

/-- Resolved entry for the `oam` network over `subW` with `offW`. -/
def eOamW : List (String × Value) :=
  [("network", Value.net subW), ("gateway", Value.addr 3232238081),
   ("reserved_start", Value.addr 3232238081), ("reserved_end", Value.addr 3232238085),
   ("static_start", Value.addr 3232238086), ("static_end", Value.addr 3232238089),
   ("vlan", Value.str "23"), ("routes", Value.strList ["0.0.0.0/0"])]

/-- Resolved entry for the `oob` network over `subW` with `offW` (no vlan). -/
def eOobW : List (String × Value) :=
  [("network", Value.net subW), ("gateway", Value.addr 3232238081),
   ("reserved_start", Value.addr 3232238081), ("reserved_end", Value.addr 3232238083),
   ("static_start", Value.addr 3232238084), ("static_end", Value.addr 3232238089),
   ("routes", Value.strList [])]

/-- Offsets exercising the boundary `ip_offset = 1`, `static_ip_end = 2`. -/
def offC3 : Offsets := ⟨1, 3, 1, 2, 2, 12⟩

/-- Resolved entry for a storage network over `subW` with `offC3`:
`reserved_start = reserved_end` and `static_start = static_end`. -/
def eC3 : List (String × Value) :=
  [("network", Value.net subW), ("gateway", Value.addr 3232238081),
   ("reserved_start", Value.addr 3232238081), ("reserved_end", Value.addr 3232238081),
   ("static_start", Value.addr 3232238082), ("static_end", Value.addr 3232238082),
   ("vlan", Value.str "23"), ("routes", Value.strList [])]

/-- Resolved `oam` entry (vlan 21) inside the whole-rule test vector. -/
def eOamN : List (String × Value) :=
  [("network", Value.net subW), ("gateway", Value.addr 3232238081),
   ("reserved_start", Value.addr 3232238081), ("reserved_end", Value.addr 3232238085),
   ("static_start", Value.addr 3232238086), ("static_end", Value.addr 3232238089),
   ("vlan", Value.str "21"), ("routes", Value.strList ["0.0.0.0/0"])]

/-- Network Block test vector: an `ingress` network with one subnet and an
`oam` network. -/
def ndW : NetworkData :=
  ⟨[("ingress", [("subnet", Value.netList [subI])]),
    ("oam", [("subnet", Value.net subW), ("vlan", Value.str "21")])], []⟩

/-- `ndW` after `applyRuleIpAllocOffset offW`. -/
def ndW2 : NetworkData :=
  ⟨[("ingress", [("subnet", Value.netList [subI])]), ("oam", eOamN)],
   [("ingress_vip", Value.addr 167772162), ("public_service_cidr", Value.net subI)]⟩

/-- Baremetal block with a single genesis host. -/
def bmC2 : Baremetal := [("r1", [("n0", [("type", "genesis")])])]

/-- Baremetal block `h1: worker, h2: genesis, h3: genesis` from the spec. -/
def bmEx : Baremetal :=
  [("r1", [("h1", [("type", "worker")]), ("h2", [("type", "genesis")]),
           ("h3", [("type", "genesis")])])]

/-- Baremetal block with no genesis host. -/
def bmNoG : Baremetal := [("r1", [("h1", [("type", "worker")])])]

/-- Empty Network Block. -/
def nd0 : NetworkData := ⟨[], []⟩

/-- A rule entry naming the registered no-op handler `hardware_profile`. -/
def ruleG : String × RuleDef := ("rule_hardware_profile", ⟨"hardware_profile", offW⟩)

/-- A rule entry naming a handler that does not exist. -/
def ruleB : String × RuleDef := ("rule_get_host_profiles", ⟨"get_host_profiles", offW⟩)

theorem subnetIps_getElem (s : IPNetwork) (i : Nat) :
    (subnetIps s)[i]? = if i < s.numAddrs then some (s.base + i) else none := by
  by_cases h : i < s.numAddrs
  · simp [subnetIps, List.getElem?_range h, h]
  · rw [if_neg h]
    refine List.getElem?_eq_none ?_
    simpa [subnetIps] using Nat.le_of_not_lt h

theorem subnetIps_length (s : IPNetwork) : (subnetIps s).length = s.numAddrs := by
  simp [subnetIps]

theorem subnetIps_getElem_some {s : IPNetwork} {i a : Nat}
    (h : (subnetIps s)[i]? = some a) : i < s.numAddrs ∧ a = s.base + i := by
  rw [subnetIps_getElem] at h
  by_cases hc : i < s.numAddrs
  · rw [if_pos hc] at h
    exact ⟨hc, (Option.some.inj h).symm⟩
  · rw [if_neg hc] at h
    exact absurd h (by simp)

theorem lookup_setKey_self {β : Type} (l : List (String × β)) (k : String) (v : β) :
    (setKey l k v).lookup k = some v := by
  induction l with
  | nil => simp [setKey, List.lookup]
  | cons hd tl ih =>
    rcases hd with ⟨k1, v1⟩
    by_cases h : k1 = k
    · simp [setKey, h, List.lookup]
    · have hne : (k == k1) = false := beq_false_of_ne fun e => h e.symm
      simpa [setKey, h, List.lookup, hne] using ih

theorem lookup_setKey_ne {β : Type} (l : List (String × β)) (k k' : String) (v : β)
    (h : k' ≠ k) : (setKey l k v).lookup k' = l.lookup k' := by
  induction l with
  | nil => simp [setKey, List.lookup, beq_false_of_ne h]
  | cons hd tl ih =>
    rcases hd with ⟨k1, v1⟩
    by_cases h2 : k1 = k
    · subst h2
      simp [setKey, List.lookup, beq_false_of_ne h]
    · simp only [setKey, h2, if_false, List.lookup]
      cases hbe : (k' == k1) <;> simp [hbe, ih]

theorem pxeFields_of_ne {o : Offsets} {t : String} {ips : List Nat} {seGen : Nat}
    (h : t ≠ "pxe") : pxeFields o t ips seGen = some ([], seGen) := by
  simp [pxeFields, h]

theorem pxeFields_of_pxe {o : Offsets} {ips : List Nat} {seGen : Nat}
    {pf : List (String × Value) × Nat} (h : pxeFields o "pxe" ips seGen = some pf) :
    ∃ se ds de, ips[ips.length / 2 - 1]? = some se ∧ ips[ips.length / 2]? = some ds ∧
      ips[o.dhcp_ip_end]? = some de ∧
      pf = ([("dhcp_start", Value.addr ds), ("dhcp_end", Value.addr de)], se) := by
  rw [pxeFields, if_pos rfl] at h
  rcases Option.bind_eq_some.mp h with ⟨se, hse, h⟩
  rcases Option.bind_eq_some.mp h with ⟨ds, hds, h⟩
  rcases Option.bind_eq_some.mp h with ⟨de, hde, h⟩
  exact ⟨se, ds, de, hse, hds, hde, (Option.some.inj h).symm⟩

theorem vlanField_oob (pre : List (String × Value)) : vlanField "oob" pre = some [] := rfl

theorem vlanField_of_ne {t : String} {pre vf : List (String × Value)}
    (ht : t ≠ "oob") (h : vlanField t pre = some vf) :
    ∃ v, pre.lookup "vlan" = some v ∧ vf = [("vlan", v)] := by
  rw [vlanField, if_neg ht] at h
  rcases Option.map_eq_some'.mp h with ⟨v, hv, h2⟩
  exact ⟨v, hv, h2.symm⟩

theorem resolveEntry_char {o : Offsets} {t : String} {s : IPNetwork}
    {pre e : List (String × Value)} (h : resolveEntry o t s pre = some e) :
    ∃ gw rs re ss seGen pf vf,
      (subnetIps s)[o.gateway]? = some gw ∧
      (subnetIps s)[1]? = some rs ∧
      (subnetIps s)[if t = "oob" then o.oob else o.default]? = some re ∧
      (subnetIps s)[(if t = "oob" then o.oob else o.default) + 1]? = some ss ∧
      (subnetIps s)[o.static_ip_end]? = some seGen ∧
      pxeFields o t (subnetIps s) seGen = some pf ∧
      vlanField t pre = some vf ∧
      e = [("network", Value.net s), ("gateway", Value.addr gw),
           ("reserved_start", Value.addr rs), ("reserved_end", Value.addr re)] ++
          pf.1 ++
          [("static_start", Value.addr ss), ("static_end", Value.addr pf.2)] ++
          vf ++
          [("routes", Value.strList (if t = "oam" then ["0.0.0.0/0"] else []))] := by
  simp only [resolveEntry] at h
  rcases Option.bind_eq_some.mp h with ⟨gw, hgw, h⟩
  rcases Option.bind_eq_some.mp h with ⟨rs, hrs, h⟩
  rcases Option.bind_eq_some.mp h with ⟨re, hre, h⟩
  rcases Option.bind_eq_some.mp h with ⟨ss, hss, h⟩
  rcases Option.bind_eq_some.mp h with ⟨seGen, hseGen, h⟩
  rcases Option.bind_eq_some.mp h with ⟨pf, hpf, h⟩
  rcases Option.bind_eq_some.mp h with ⟨vf, hvf, h⟩
  exact ⟨gw, rs, re, ss, seGen, pf, vf, hgw, hrs, hre, hss, hseGen, hpf, hvf,
    (Option.some.inj h).symm⟩

theorem resolveEntry_keys {o : Offsets} {t : String} {s : IPNetwork}
    {pre e : List (String × Value)} (h : resolveEntry o t s pre = some e) :
    e.map Prod.fst =
      ["network", "gateway", "reserved_start", "reserved_end"] ++
      (if t = "pxe" then ["dhcp_start", "dhcp_end"] else []) ++
      ["static_start", "static_end"] ++
      (if t = "oob" then [] else ["vlan"]) ++ ["routes"] := by
  rcases resolveEntry_char h with
    ⟨gw, rs, re, ss, seGen, pf, vf, hgw, hrs, hre, hss, hseGen, hpf, hvf, he⟩
  by_cases htp : t = "pxe"
  · subst htp
    rcases pxeFields_of_pxe hpf with ⟨se, ds, de, hse, hds, hde, hpfe⟩
    subst hpfe
    rcases vlanField_of_ne (by decide) hvf with ⟨v, hv, hvfe⟩
    subst hvfe
    subst he
    rfl
  · rw [pxeFields_of_ne htp] at hpf
    have hpfe : pf = ([], seGen) := (Option.some.inj hpf).symm
    subst hpfe
    by_cases hob : t = "oob"
    · subst hob
      rw [vlanField_oob] at hvf
      have hvfe : vf = [] := (Option.some.inj hvf).symm
      subst hvfe
      subst he
      rfl
    · rcases vlanField_of_ne hob hvf with ⟨v, hv, hvfe⟩
      subst hvfe
      subst he
      simp [htp, hob]

theorem getNetworkSubnets_not_ingress {vnd : List (String × List (String × Value))}
    {subs : List (String × IPNetwork)} (h : getNetworkSubnets vnd = some subs) :
    ∀ q ∈ subs, q.1 ≠ "ingress" := by
  induction vnd generalizing subs with
  | nil =>
    have : subs = [] := (Option.some.inj h).symm
    subst this
    simp
  | cons hd rest ih =>
    rcases hd with ⟨t, e⟩
    rw [getNetworkSubnets] at h
    by_cases ht : t = "ingress"
    · rw [if_pos ht] at h
      exact ih h
    · rw [if_neg ht] at h
      rcases he : e.lookup "subnet" with _ | v
      · rw [he] at h
        exact absurd h (by simp)
      · rw [he] at h
        cases v with
        | net s =>
          rcases Option.map_eq_some'.mp h with ⟨r, hr, hsubs⟩
          subst hsubs
          intro q hq
          rcases List.mem_cons.mp hq with hq | hq
          · subst hq
            exact ht
          · exact ih hr q hq
        | str v => exact absurd h (by simp)
        | addr v => exact absurd h (by simp)
        | netList v => exact absurd h (by simp)
        | strList v => exact absurd h (by simp)

theorem getNetworkSubnets_sublist {vnd : List (String × List (String × Value))}
    {subs : List (String × IPNetwork)} (h : getNetworkSubnets vnd = some subs) :
    List.Sublist (subs.map Prod.fst) (vnd.map Prod.fst) := by
  induction vnd generalizing subs with
  | nil =>
    have : subs = [] := (Option.some.inj h).symm
    subst this
    simp
  | cons hd rest ih =>
    rcases hd with ⟨t, e⟩
    rw [getNetworkSubnets] at h
    by_cases ht : t = "ingress"
    · rw [if_pos ht] at h
      exact (ih h).trans (List.sublist_cons_self _ _)
    · rw [if_neg ht] at h
      rcases he : e.lookup "subnet" with _ | v
      · rw [he] at h
        exact absurd h (by simp)
      · rw [he] at h
        cases v with
        | net s =>
          rcases Option.map_eq_some'.mp h with ⟨r, hr, hsubs⟩
          subst hsubs
          simpa using List.Sublist.cons₂ t (ih hr)
        | str v => exact absurd h (by simp)
        | addr v => exact absurd h (by simp)
        | netList v => exact absurd h (by simp)
        | strList v => exact absurd h (by simp)

theorem applyLoop_preserve {o : Offsets} {subs : List (String × IPNetwork)}
    {vnd vnd' : List (String × List (String × Value))} {t : String}
    (h : applyLoop o subs vnd = some vnd') (ht : ∀ q ∈ subs, q.1 ≠ t) :
    vnd'.lookup t = vnd.lookup t := by
  induction subs generalizing vnd with
  | nil =>
    have : vnd' = vnd := (Option.some.inj h).symm
    subst this
    rfl
  | cons hd rest ih =>
    rcases hd with ⟨t0, s0⟩
    rw [applyLoop] at h
    rcases Option.bind_eq_some.mp h with ⟨pre, hpre, h⟩
    rcases Option.bind_eq_some.mp h with ⟨e, he, h⟩
    have ht0 : t0 ≠ t := ht (t0, s0) (by simp)
    have := ih h (fun q hq => ht q (List.mem_cons_of_mem _ hq))
    rw [this, lookup_setKey_ne _ _ _ _ (fun hc => ht0 hc.symm)]

theorem applyLoop_spec {o : Offsets} {subs : List (String × IPNetwork)}
    {vnd vnd' : List (String × List (String × Value))}
    (hnd : (subs.map Prod.fst).Nodup)
    (h : applyLoop o subs vnd = some vnd') :
    ∀ t sub, (t, sub) ∈ subs →
      ∃ pre e, vnd.lookup t = some pre ∧ resolveEntry o t sub pre = some e ∧
        vnd'.lookup t = some e := by
  induction subs generalizing vnd with
  | nil => simp
  | cons hd rest ih =>
    rcases hd with ⟨t0, s0⟩
    rw [applyLoop] at h
    rcases Option.bind_eq_some.mp h with ⟨pre0, hpre0, h1⟩
    rcases Option.bind_eq_some.mp h1 with ⟨e0, he0, h2⟩
    rw [List.map_cons, List.nodup_cons] at hnd
    intro t sub hmem
    rcases List.mem_cons.mp hmem with hmem2 | hmem2
    · rw [Prod.mk.injEq] at hmem2
      obtain ⟨ht, hsub⟩ := hmem2
      subst ht
      subst hsub
      refine ⟨pre0, e0, hpre0, he0, ?_⟩
      have hrest : ∀ q ∈ rest, q.1 ≠ t := by
        intro q hq hc
        have hm2 : q.1 ∈ List.map Prod.fst rest := List.mem_map_of_mem Prod.fst hq
        rw [hc] at hm2
        exact hnd.1 hm2
      rw [applyLoop_preserve h2 hrest]
      exact lookup_setKey_self vnd t e0
    · have ht0 : t ≠ t0 := by
        intro hc
        refine hnd.1 ?_
        have := List.mem_map_of_mem Prod.fst hmem2
        simpa [hc] using this
      rcases ih hnd.2 h2 t sub hmem2 with ⟨pre, e, hl, hr, hl'⟩
      rw [lookup_setKey_ne _ _ _ _ ht0] at hl
      exact ⟨pre, e, hl, hr, hl'⟩

theorem processRack_eq (hs : RackHosts)
    (h : ∀ p ∈ hs, (List.lookup "type" p.2).isSome) :
    processRack hs = some (hs.map updHost,
      (hs.reverse.find? genesisHostPred).map fun p => setKey p.2 "name" p.1) := by
  induction hs with
  | nil => rfl
  | cons q rest ih =>
    rcases q with ⟨k, hA⟩
    obtain ⟨t, ht⟩ := Option.isSome_iff_exists.mp (h (k, hA) (by simp))
    have hrest := ih (fun p hp => h p (List.mem_cons_of_mem _ hp))
    rw [processRack, ht, hrest]
    rw [Option.some_bind', Option.some_bind']
    rw [List.reverse_cons, List.find?_append, List.find?_singleton, Option.map_or']
    by_cases hg : t = "genesis"
    · simp [updHost, ht, hg, genesisHostPred]
    · simp [updHost, ht, hg, genesisHostPred]

theorem getGenesis_eq (bm : Baremetal) (h : allTyped bm) :
    getGenesisNodeDetails bm = some (bmMap bm, genesisSpec bm) := by
  induction bm with
  | nil => rfl
  | cons r rest ih =>
    rcases r with ⟨rk, hs⟩
    have h1 : ∀ p ∈ hs, (List.lookup "type" p.2).isSome :=
      fun p hp => h (rk, hs) (by simp) p hp
    have h2 : allTyped rest := fun r hr p hp => h r (List.mem_cons_of_mem _ hr) p hp
    rw [getGenesisNodeDetails, processRack_eq hs h1]
    rw [Option.some_bind', ih h2, Option.some_bind']
    simp [bmMap, genesisSpec, List.reverse_append, List.find?_append, Option.map_or']

/-- Claim C1: for every non-ingress, non-pxe network type resolved by the
`ip_alloc_offset` rule over a subnet with ordered address list `ips`, the
entry's `gateway` is `ips[offsets.gateway]`, `reserved_start` is `ips[1]`,
`reserved_end` is `ips[ip_offset]`, `static_start` is `ips[ip_offset + 1]`
and `static_end` is `ips[offsets.static_ip_end]`, where `ip_offset` is
`offsets.oob` for the `oob` type and `offsets.default` otherwise. -/
theorem C1_offset_fields (o : Offsets) (t : String) (s : IPNetwork)
    (pre e : List (String × Value)) (hti : t ≠ "ingress") (htp : t ≠ "pxe")
    (h : resolveEntry o t s pre = some e) :
    ∃ gw rs re ss se,
      (subnetIps s)[o.gateway]? = some gw ∧ e.lookup "gateway" = some (Value.addr gw) ∧
      (subnetIps s)[1]? = some rs ∧ e.lookup "reserved_start" = some (Value.addr rs) ∧
      (subnetIps s)[if t = "oob" then o.oob else o.default]? = some re ∧
        e.lookup "reserved_end" = some (Value.addr re) ∧
      (subnetIps s)[(if t = "oob" then o.oob else o.default) + 1]? = some ss ∧
        e.lookup "static_start" = some (Value.addr ss) ∧
      (subnetIps s)[o.static_ip_end]? = some se ∧
        e.lookup "static_end" = some (Value.addr se) := by
  rcases resolveEntry_char h with
    ⟨gw, rs, re, ss, seGen, pf, vf, hgw, hrs, hre, hss, hseGen, hpf, hvf, he⟩
  rw [pxeFields_of_ne htp] at hpf
  have hpfe : pf = ([], seGen) := (Option.some.inj hpf).symm
  subst hpfe
  by_cases hob : t = "oob"
  · subst hob
    rw [vlanField_oob] at hvf
    have hvfe : vf = [] := (Option.some.inj hvf).symm
    subst hvfe
    subst he
    exact ⟨gw, rs, re, ss, seGen, hgw, rfl, hrs, rfl, hre, rfl, hss, rfl, hseGen, rfl⟩
  · rcases vlanField_of_ne hob hvf with ⟨v, hv, hvfe⟩
    subst hvfe
    subst he
    exact ⟨gw, rs, re, ss, seGen, hgw, rfl, hrs, rfl, hre, rfl, hss, rfl, hseGen, rfl⟩

/-- Witness for C1 at `offW`, type `storage`, subnet `subW`. -/
theorem C1_offset_fields_witness :
    ∃ gw rs re ss se,
      (subnetIps subW)[offW.gateway]? = some gw ∧
        eW.lookup "gateway" = some (Value.addr gw) ∧
      (subnetIps subW)[1]? = some rs ∧
        eW.lookup "reserved_start" = some (Value.addr rs) ∧
      (subnetIps subW)[if ("storage" : String) = "oob" then offW.oob
          else offW.default]? = some re ∧
        eW.lookup "reserved_end" = some (Value.addr re) ∧
      (subnetIps subW)[(if ("storage" : String) = "oob" then offW.oob
          else offW.default) + 1]? = some ss ∧
        eW.lookup "static_start" = some (Value.addr ss) ∧
      (subnetIps subW)[offW.static_ip_end]? = some se ∧
        eW.lookup "static_end" = some (Value.addr se) :=
  C1_offset_fields offW "storage" subW preW eW (by decide) (by decide) (by decide)

/-- Claim C2 counterexample: on a block with one genesis host the
original host entry inside the baremetal block is changed — it gains a
`name` field — so the block after the scan differs from the original. -/
theorem C2_counterexample :
    (getGenesisNodeDetails bmC2).map Prod.fst =
      some [("r1", [("n0", [("type", "genesis"), ("name", "n0")])])] ∧
    ¬ ((getGenesisNodeDetails bmC2).map Prod.fst = some bmC2) := by
  constructor
  · rfl
  · intro hc
    have h1 : (getGenesisNodeDetails bmC2).map Prod.fst =
        some [("r1", [("n0", [("type", "genesis"), ("name", "n0")])])] := rfl
    rw [h1] at hc
    have h2 := Option.some.inj hc
    exact absurd h2 (by decide)

/-- Claim C2 (amended): the recorded genesis node is the matching host's
attribute mapping with a `name` field injected, but it aliases the host's
entry: after the scan every host whose type is `genesis` has `name`
injected into its entry inside the baremetal block, while every other
entry is unchanged.  (The original claim — a copy, original untouched —
fails on the code: `self.genesis_node = rack_hosts[host]` aliases, so the
`name` assignment also mutates the baremetal block; see the
counterexample.) -/
theorem C2_genesis_aliasing (bm : Baremetal) (h : allTyped bm) :
    (getGenesisNodeDetails bm).map Prod.fst = some (bmMap bm) := by
  rw [getGenesis_eq bm h]
  rfl

/-- Witness for C2 (amended) on the concrete block `bmEx`. -/
theorem C2_genesis_aliasing_witness :
    (getGenesisNodeDetails bmEx).map Prod.fst = some (bmMap bmEx) :=
  C2_genesis_aliasing bmEx (by decide)

/-- Claim C3 counterexample: `offC3` satisfies the original hypotheses
(`0 < ip_offset < static_ip_end < N - 1`, `16 ≤ N`), yet the resolved
addresses are not strictly increasing: `reserved_start = reserved_end`. -/
theorem C3_counterexample :
    (0 < offC3.default ∧ offC3.default < offC3.static_ip_end ∧
      offC3.static_ip_end < subW.numAddrs - 1 ∧ 16 ≤ subW.numAddrs) ∧
    resolveEntry offC3 "storage" subW preW = some eC3 ∧
    ¬ (∃ a b c d,
        eC3.lookup "reserved_start" = some (Value.addr a) ∧
        eC3.lookup "reserved_end" = some (Value.addr b) ∧
        eC3.lookup "static_start" = some (Value.addr c) ∧
        eC3.lookup "static_end" = some (Value.addr d) ∧
        a < b ∧ b < c ∧ c < d ∧ subW.base ≤ a ∧ d < subW.base + subW.numAddrs) := by
  refine ⟨by decide, by decide, ?_⟩
  rintro ⟨a, b, c, d, ha, hb, hc, hd, hab, hbc, hcd, hba, hin⟩
  have hk1 : eC3.lookup "reserved_start" = some (Value.addr 3232238081) := by decide
  have hk2 : eC3.lookup "reserved_end" = some (Value.addr 3232238081) := by decide
  have ea : (3232238081 : Nat) = a := Value.addr.inj (Option.some.inj (hk1.symm.trans ha))
  have eb : (3232238081 : Nat) = b := Value.addr.inj (Option.some.inj (hk2.symm.trans hb))
  omega

/-- Claim C3 (amended): for every valid subnet with at least 16 addresses
and offsets with `1 < ip_offset` and `ip_offset + 1 < static_ip_end < N - 1`,
the resolved `reserved_start`, `reserved_end`, `static_start`, `static_end`
of a non-pxe network are strictly increasing addresses within the subnet.
(The original bound `0 < ip_offset` is not enough: at `ip_offset = 1` the
code makes `reserved_start = ips[1] = reserved_end`, and at
`static_ip_end = ip_offset + 1` it makes `static_start = static_end`; see
the counterexample.) -/
theorem C3_ranges_monotone (o : Offsets) (t : String) (s : IPNetwork)
    (pre e : List (String × Value)) (htp : t ≠ "pxe")
    (h16 : 16 ≤ s.numAddrs)
    (hlo : 1 < (if t = "oob" then o.oob else o.default))
    (hmid : (if t = "oob" then o.oob else o.default) + 1 < o.static_ip_end)
    (hhi : o.static_ip_end < s.numAddrs - 1)
    (h : resolveEntry o t s pre = some e) :
    ∃ a b c d,
      e.lookup "reserved_start" = some (Value.addr a) ∧
      e.lookup "reserved_end" = some (Value.addr b) ∧
      e.lookup "static_start" = some (Value.addr c) ∧
      e.lookup "static_end" = some (Value.addr d) ∧
      a < b ∧ b < c ∧ c < d ∧ s.base ≤ a ∧ d < s.base + s.numAddrs := by
  rcases resolveEntry_char h with
    ⟨gw, rs, re, ss, seGen, pf, vf, hgw, hrs, hre, hss, hseGen, hpf, hvf, he⟩
  rw [pxeFields_of_ne htp] at hpf
  have hpfe : pf = ([], seGen) := (Option.some.inj hpf).symm
  subst hpfe
  obtain ⟨hrsN, hrsEq⟩ := subnetIps_getElem_some hrs
  obtain ⟨hreN, hreEq⟩ := subnetIps_getElem_some hre
  obtain ⟨hssN, hssEq⟩ := subnetIps_getElem_some hss
  obtain ⟨hseN, hseEq⟩ := subnetIps_getElem_some hseGen
  by_cases hob : t = "oob"
  · subst hob
    rw [vlanField_oob] at hvf
    have hvfe : vf = [] := (Option.some.inj hvf).symm
    subst hvfe
    subst he
    refine ⟨rs, re, ss, seGen, rfl, rfl, rfl, rfl, ?_, ?_, ?_, ?_, ?_⟩ <;>
      rw [if_pos rfl] at hlo hmid hreEq hssEq <;> omega
  · rcases vlanField_of_ne hob hvf with ⟨v, hv, hvfe⟩
    subst hvfe
    subst he
    refine ⟨rs, re, ss, seGen, rfl, rfl, rfl, rfl, ?_, ?_, ?_, ?_, ?_⟩ <;>
      rw [if_neg hob] at hlo hmid hreEq hssEq <;> omega

/-- Witness for C3 (amended) at `offW`, type `storage`, subnet `subW`. -/
theorem C3_ranges_monotone_witness :
    ∃ a b c d,
      eW.lookup "reserved_start" = some (Value.addr a) ∧
      eW.lookup "reserved_end" = some (Value.addr b) ∧
      eW.lookup "static_start" = some (Value.addr c) ∧
      eW.lookup "static_end" = some (Value.addr d) ∧
      a < b ∧ b < c ∧ c < d ∧ subW.base ≤ a ∧ d < subW.base + subW.numAddrs :=
  C3_ranges_monotone offW "storage" subW preW eW (by decide) (by decide) (by decide) (by decide)
    (by decide) (by decide)

/-- Claim C4: for the `pxe` network type with address list of length `N`
and `mid = N / 2`, `static_end` is `ips[mid - 1]`, `dhcp_start` is
`ips[mid]` and `dhcp_end` is `ips[offsets.dhcp_ip_end]`; the index
difference between `dhcp_start` and `static_end` is exactly 1 (their
addresses are adjacent), independent of `static_ip_end`, and all other
fields are computed as in the general case. -/
theorem C4_pxe_fields (o : Offsets) (s : IPNetwork) (pre e : List (String × Value))
    (h : resolveEntry o "pxe" s pre = some e) :
    ∃ se ds de gw rs re ss v,
      (subnetIps s)[(subnetIps s).length / 2 - 1]? = some se ∧
        e.lookup "static_end" = some (Value.addr se) ∧
      (subnetIps s)[(subnetIps s).length / 2]? = some ds ∧
        e.lookup "dhcp_start" = some (Value.addr ds) ∧
      (subnetIps s)[o.dhcp_ip_end]? = some de ∧
        e.lookup "dhcp_end" = some (Value.addr de) ∧
      ds = se + 1 ∧
      (subnetIps s).length / 2 - ((subnetIps s).length / 2 - 1) = 1 ∧
      (subnetIps s)[o.gateway]? = some gw ∧ e.lookup "gateway" = some (Value.addr gw) ∧
      (subnetIps s)[1]? = some rs ∧ e.lookup "reserved_start" = some (Value.addr rs) ∧
      (subnetIps s)[o.default]? = some re ∧ e.lookup "reserved_end" = some (Value.addr re) ∧
      (subnetIps s)[o.default + 1]? = some ss ∧
        e.lookup "static_start" = some (Value.addr ss) ∧
      pre.lookup "vlan" = some v ∧ e.lookup "vlan" = some v ∧
      e.lookup "routes" = some (Value.strList []) := by
  rcases resolveEntry_char h with
    ⟨gw, rs, re, ss, seGen, pf, vf, hgw, hrs, hre, hss, hseGen, hpf, hvf, he⟩
  rcases pxeFields_of_pxe hpf with ⟨se, ds, de, hse, hds, hde, hpfe⟩
  subst hpfe
  rcases vlanField_of_ne (by decide) hvf with ⟨v, hv, hvfe⟩
  subst hvfe
  rw [if_neg (by decide : ¬ ("pxe" : String) = "oob")] at hre hss
  subst he
  obtain ⟨hseN, hseEq⟩ := subnetIps_getElem_some hse
  obtain ⟨hdsN, hdsEq⟩ := subnetIps_getElem_some hds
  obtain ⟨h1N, _⟩ := subnetIps_getElem_some hrs
  rw [subnetIps_length] at hseEq hdsEq
  refine ⟨se, ds, de, gw, rs, re, ss, v, hse, rfl, hds, rfl, hde, rfl, ?_, ?_,
    hgw, rfl, hrs, rfl, hre, rfl, hss, rfl, hv, rfl, rfl⟩
  · omega
  · rw [subnetIps_length]
    omega

/-- Witness for C4 at `offW`, subnet `subW` (16 addresses, mid 8). -/
theorem C4_pxe_fields_witness :
    ∃ se ds de gw rs re ss v,
      (subnetIps subW)[(subnetIps subW).length / 2 - 1]? = some se ∧
        ePxeW.lookup "static_end" = some (Value.addr se) ∧
      (subnetIps subW)[(subnetIps subW).length / 2]? = some ds ∧
        ePxeW.lookup "dhcp_start" = some (Value.addr ds) ∧
      (subnetIps subW)[offW.dhcp_ip_end]? = some de ∧
        ePxeW.lookup "dhcp_end" = some (Value.addr de) ∧
      ds = se + 1 ∧
      (subnetIps subW).length / 2 - ((subnetIps subW).length / 2 - 1) = 1 ∧
      (subnetIps subW)[offW.gateway]? = some gw ∧
        ePxeW.lookup "gateway" = some (Value.addr gw) ∧
      (subnetIps subW)[1]? = some rs ∧
        ePxeW.lookup "reserved_start" = some (Value.addr rs) ∧
      (subnetIps subW)[offW.default]? = some re ∧
        ePxeW.lookup "reserved_end" = some (Value.addr re) ∧
      (subnetIps subW)[offW.default + 1]? = some ss ∧
        ePxeW.lookup "static_start" = some (Value.addr ss) ∧
      preW.lookup "vlan" = some v ∧ ePxeW.lookup "vlan" = some v ∧
      ePxeW.lookup "routes" = some (Value.strList []) :=
  C4_pxe_fields offW subW preW ePxeW (by decide)

/-- Claim C5: the ingress network is excluded from per-type offset
processing; the `ip_alloc_offset` rule sets `bgp.ingress_vip` to
`ips[offsets.ingress_vip]` of the first subnet in the ingress network's
subnet sequence and `bgp.public_service_cidr` to that first subnet
unchanged, while the ingress entry itself is left untouched. -/
theorem C5_ingress_bgp (o : Offsets) (nd nd' : NetworkData)
    (h : applyRuleIpAllocOffset o nd = some nd') :
    ∃ ie l s0 vip,
      nd.vlanNetworkData.lookup "ingress" = some ie ∧
      ie.lookup "subnet" = some (Value.netList l) ∧
      l[0]? = some s0 ∧
      (subnetIps s0)[o.ingress_vip]? = some vip ∧
      nd'.bgp.lookup "ingress_vip" = some (Value.addr vip) ∧
      nd'.bgp.lookup "public_service_cidr" = some (Value.net s0) ∧
      nd'.vlanNetworkData.lookup "ingress" = nd.vlanNetworkData.lookup "ingress" ∧
      (∀ subs, getNetworkSubnets nd.vlanNetworkData = some subs →
        "ingress" ∉ subs.map Prod.fst) := by
  simp only [applyRuleIpAllocOffset] at h
  rcases Option.bind_eq_some.mp h with ⟨ie, hie, h1⟩
  rcases Option.bind_eq_some.mp h1 with ⟨sv, hsv, h2⟩
  rcases Option.bind_eq_some.mp h2 with ⟨s0, hs0, h3⟩
  rcases Option.bind_eq_some.mp h3 with ⟨vip, hvip, h4⟩
  rcases Option.bind_eq_some.mp h4 with ⟨subs, hsubs, h5⟩
  rcases Option.bind_eq_some.mp h5 with ⟨vnd, hvnd, h6⟩
  have hnd' : nd' = NetworkData.mk vnd (setKey (setKey nd.bgp "ingress_vip"
      (Value.addr vip)) "public_service_cidr" (Value.net s0)) :=
    (Option.some.inj h6).symm
  subst hnd'
  have hsvl : ∃ l, sv = Value.netList l ∧ l[0]? = some s0 := by
    cases sv with
    | netList l => exact ⟨l, rfl, hs0⟩
    | str v => exact absurd hs0 (by simp)
    | addr v => exact absurd hs0 (by simp)
    | net v => exact absurd hs0 (by simp)
    | strList v => exact absurd hs0 (by simp)
  rcases hsvl with ⟨l, hsvl, hl0⟩
  subst hsvl
  refine ⟨ie, l, s0, vip, hie, hsv, hl0, hvip, ?_, ?_, ?_, ?_⟩
  · rw [lookup_setKey_ne _ _ _ _ (by decide), lookup_setKey_self]
  · rw [lookup_setKey_self]
  · exact applyLoop_preserve hvnd (getNetworkSubnets_not_ingress hsubs)
  · intro subs2 hsubs2 hmem
    rcases List.mem_map.mp hmem with ⟨q, hq, hq1⟩
    exact getNetworkSubnets_not_ingress hsubs2 q hq hq1

/-- Witness for C5 on the concrete Network Block `ndW`. -/
theorem C5_ingress_bgp_witness :
    ∃ ie l s0 vip,
      ndW.vlanNetworkData.lookup "ingress" = some ie ∧
      ie.lookup "subnet" = some (Value.netList l) ∧
      l[0]? = some s0 ∧
      (subnetIps s0)[offW.ingress_vip]? = some vip ∧
      ndW2.bgp.lookup "ingress_vip" = some (Value.addr vip) ∧
      ndW2.bgp.lookup "public_service_cidr" = some (Value.net s0) ∧
      ndW2.vlanNetworkData.lookup "ingress" = ndW.vlanNetworkData.lookup "ingress" ∧
      (∀ subs, getNetworkSubnets ndW.vlanNetworkData = some subs →
        "ingress" ∉ subs.map Prod.fst) :=
  C5_ingress_bgp offW ndW ndW2 (by decide)

/-- Claim C6: the genesis locator returns the last host in iteration
order whose type is `genesis`, with `name` equal to that host's key (no
first-match short-circuit); over hosts `h1: worker, h2: genesis,
h3: genesis` it returns `h3`; and when no host matches the result is
absent and the run does not fail. -/
theorem C6_genesis_last_match :
    (∀ bm : Baremetal, allTyped bm →
      (getGenesisNodeDetails bm).map Prod.snd = some (genesisSpec bm)) ∧
    ((getGenesisNodeDetails
        [("r1", [("h1", [("type", "worker")]), ("h2", [("type", "genesis")]),
                 ("h3", [("type", "genesis")])])]).map Prod.snd =
      some (some [("type", "genesis"), ("name", "h3")])) ∧
    (∀ bm : Baremetal, allTyped bm →
      (∀ r ∈ bm, ∀ p ∈ r.2, ¬ (List.lookup "type" p.2 = some "genesis")) →
      ∃ bm', getGenesisNodeDetails bm = some (bm', none)) := by
  refine ⟨fun bm h => by rw [getGenesis_eq bm h]; rfl, by decide, fun bm h hng => ?_⟩
  refine ⟨bmMap bm, ?_⟩
  rw [getGenesis_eq bm h]
  have hnone : ((bm.map Prod.snd).flatten).reverse.find? genesisHostPred = none := by
    rw [List.find?_eq_none]
    intro q hq
    rw [List.mem_reverse] at hq
    rcases List.mem_flatten.mp hq with ⟨hs, hhs, hqhs⟩
    rcases List.mem_map.mp hhs with ⟨r, hr, hr2⟩
    have := hng r hr q (by rw [hr2]; exact hqhs)
    simpa [genesisHostPred] using this
  rw [genesisSpec, hnone]
  rfl

/-- Witness for C6 on the blocks `bmEx` and `bmNoG`. -/
theorem C6_genesis_last_match_witness :
    ((getGenesisNodeDetails bmEx).map Prod.snd = some (genesisSpec bmEx)) ∧
    (∃ bm', getGenesisNodeDetails bmNoG = some (bm', none)) :=
  ⟨C6_genesis_last_match.1 bmEx (by decide), C6_genesis_last_match.2.2 bmNoG (by decide) (by decide)⟩

/-- Claim C7: for every network type processed by the `ip_alloc_offset`
rule, the resolved entry's `routes` field is `["0.0.0.0/0"]` if and only
if the type is `oam`, and the empty list for every other type. -/
theorem C7_routes_iff_oam (o : Offsets) (t : String) (s : IPNetwork)
    (pre e : List (String × Value)) (h : resolveEntry o t s pre = some e) :
    (e.lookup "routes" = some (Value.strList ["0.0.0.0/0"]) ↔ t = "oam") ∧
    (t ≠ "oam" → e.lookup "routes" = some (Value.strList [])) := by
  rcases resolveEntry_char h with
    ⟨gw, rs, re, ss, seGen, pf, vf, hgw, hrs, hre, hss, hseGen, hpf, hvf, he⟩
  have hR : e.lookup "routes" =
      some (Value.strList (if t = "oam" then ["0.0.0.0/0"] else [])) := by
    by_cases htp : t = "pxe"
    · subst htp
      rcases pxeFields_of_pxe hpf with ⟨se, ds, de, hse, hds, hde, hpfe⟩
      subst hpfe
      rcases vlanField_of_ne (by decide) hvf with ⟨v, hv, hvfe⟩
      subst hvfe
      subst he
      rfl
    · rw [pxeFields_of_ne htp] at hpf
      have hpfe : pf = ([], seGen) := (Option.some.inj hpf).symm
      subst hpfe
      by_cases hob : t = "oob"
      · subst hob
        rw [vlanField_oob] at hvf
        have hvfe : vf = [] := (Option.some.inj hvf).symm
        subst hvfe
        subst he
        rfl
      · rcases vlanField_of_ne hob hvf with ⟨v, hv, hvfe⟩
        subst hvfe
        subst he
        rfl
  refine ⟨⟨fun heq => ?_, fun heq => by rw [hR, if_pos heq]⟩,
    fun hne => by rw [hR, if_neg hne]⟩
  by_contra hne
  have hcmb := hR.symm.trans heq
  rw [if_neg hne] at hcmb
  simp at hcmb

/-- Witness for C7 at the `oam` network type. -/
theorem C7_routes_iff_oam_witness :
    (eOamW.lookup "routes" = some (Value.strList ["0.0.0.0/0"]) ↔
      ("oam" : String) = "oam") ∧
    (("oam" : String) ≠ "oam" → eOamW.lookup "routes" = some (Value.strList [])) :=
  C7_routes_iff_oam offW "oam" subW preW eOamW (by decide)

/-- Claim C8: after the `ip_alloc_offset` rule, the resolved `oob` entry
carries no `vlan` field, and the resolved entry of every other non-ingress
type carries a `vlan` field equal to the pre-resolution entry's `vlan`. -/
theorem C8_vlan_field (o : Offsets) (t : String) (s : IPNetwork)
    (pre e : List (String × Value)) (hti : t ≠ "ingress")
    (h : resolveEntry o t s pre = some e) :
    (t = "oob" → e.lookup "vlan" = none) ∧
    (t ≠ "oob" → ∃ v, pre.lookup "vlan" = some v ∧ e.lookup "vlan" = some v) := by
  rcases resolveEntry_char h with
    ⟨gw, rs, re, ss, seGen, pf, vf, hgw, hrs, hre, hss, hseGen, hpf, hvf, he⟩
  constructor
  · intro hob
    subst hob
    rw [pxeFields_of_ne (by decide)] at hpf
    have hpfe : pf = ([], seGen) := (Option.some.inj hpf).symm
    subst hpfe
    rw [vlanField_oob] at hvf
    have hvfe : vf = [] := (Option.some.inj hvf).symm
    subst hvfe
    subst he
    rfl
  · intro hob
    rcases vlanField_of_ne hob hvf with ⟨v, hv, hvfe⟩
    subst hvfe
    by_cases htp : t = "pxe"
    · subst htp
      rcases pxeFields_of_pxe hpf with ⟨se, ds, de, hse, hds, hde, hpfe⟩
      subst hpfe
      subst he
      exact ⟨v, hv, rfl⟩
    · rw [pxeFields_of_ne htp] at hpf
      have hpfe : pf = ([], seGen) := (Option.some.inj hpf).symm
      subst hpfe
      subst he
      exact ⟨v, hv, rfl⟩

/-- Witness for C8 at the `oob` network type. -/
theorem C8_vlan_field_witness :
    (("oob" : String) = "oob" → eOobW.lookup "vlan" = none) ∧
    (("oob" : String) ≠ "oob" →
      ∃ v, preW.lookup "vlan" = some v ∧ eOobW.lookup "vlan" = some v) :=
  C8_vlan_field offW "oob" subW preW eOobW (by decide) (by decide)

/-- Claim C9: the dispatcher applies handlers in iteration order of the
rule collection (it agrees with the in-order monadic fold of the handler
applications), and whenever some rule entry names a rule with no
registered handler the dispatch fails with an error: no fallback, the run
does not continue normally. -/
theorem C9_dispatcher :
    (∀ (rules : List (String × RuleDef)) (d d' : NetworkData),
      runHandlers rules d = some d' → applyDesignRules rules d = Except.ok d') ∧
    (∀ (rules : List (String × RuleDef)) (d : NetworkData),
      (∃ r ∈ rules, getHandler r.2.name = none) →
      ∃ msg, applyDesignRules rules d = Except.error msg) := by
  constructor
  · intro rules
    induction rules with
    | nil =>
      intro d d' h
      have hdd : d = d' := Option.some.inj h
      subst hdd
      rfl
    | cons rr rest ih =>
      rcases rr with ⟨k, rd⟩
      intro d d' h
      rw [runHandlers, List.foldlM_cons] at h
      rcases Option.bind_eq_some.mp h with ⟨d2, hd2, hrest⟩
      rcases Option.bind_eq_some.mp hd2 with ⟨f, hf, happ⟩
      have hrest' : runHandlers rest d2 = some d' := by
        rw [runHandlers]
        exact hrest
      simp only [applyDesignRules, hf, happ]
      exact ih d2 d' hrest'
  · intro rules
    induction rules with
    | nil =>
      intro d hex
      rcases hex with ⟨r, hr, _⟩
      simp at hr
    | cons rr rest ih =>
      rcases rr with ⟨k, rd⟩
      intro d hex
      rcases hg : getHandler rd.name with _ | f
      · exact ⟨"ProcessDataSource has no attribute _apply_rule_" ++ rd.name,
          by simp only [applyDesignRules, hg]⟩
      · rcases happ : f rd.payload d with _ | d2
        · exact ⟨"rule handler " ++ rd.name ++ " raised",
          by simp only [applyDesignRules, hg, happ]⟩
        · rcases hex with ⟨r, hr, hnone⟩
          rcases List.mem_cons.mp hr with hr2 | hr2
          · rw [hr2] at hnone
            rw [hg] at hnone
            exact absurd hnone (by simp)
          · rcases ih d2 ⟨r, hr2, hnone⟩ with ⟨msg, hmsg⟩
            refine ⟨msg, ?_⟩
            simp only [applyDesignRules, hg, happ]
            exact hmsg

/-- Witness for C9: a registered no-op rule succeeds, and appending a
rule with an unregistered name makes the dispatch fail. -/
theorem C9_dispatcher_witness :
    applyDesignRules [ruleG] nd0 = Except.ok nd0 ∧
    (∃ msg, applyDesignRules [ruleG, ruleB] nd0 = Except.error msg) :=
  ⟨C9_dispatcher.1 [ruleG] nd0 nd0 rfl, C9_dispatcher.2 [ruleG, ruleB] nd0 ⟨ruleB, by decide, rfl⟩⟩

/-- Claim C10: for every non-ingress network type the `ip_alloc_offset`
rule replaces the whole entry in `vlan_network_data` by a freshly built
mapping whose keys are exactly `network, gateway, reserved_start,
reserved_end, [dhcp_start, dhcp_end for pxe], static_start, static_end,
[vlan for non-oob], routes`; in particular the pre-resolution `subnet` key
is absent from the post-resolution entry. -/
theorem C10_entry_replacement (o : Offsets) (nd nd' : NetworkData) (subs : List (String × IPNetwork))
    (hnodup : (nd.vlanNetworkData.map Prod.fst).Nodup)
    (hsubs : getNetworkSubnets nd.vlanNetworkData = some subs)
    (h : applyRuleIpAllocOffset o nd = some nd') :
    ∀ t sub, (t, sub) ∈ subs →
      ∃ pre e, nd.vlanNetworkData.lookup t = some pre ∧
        resolveEntry o t sub pre = some e ∧
        nd'.vlanNetworkData.lookup t = some e ∧
        e.map Prod.fst =
          ["network", "gateway", "reserved_start", "reserved_end"] ++
          (if t = "pxe" then ["dhcp_start", "dhcp_end"] else []) ++
          ["static_start", "static_end"] ++
          (if t = "oob" then [] else ["vlan"]) ++ ["routes"] ∧
        "subnet" ∉ e.map Prod.fst := by
  simp only [applyRuleIpAllocOffset] at h
  rcases Option.bind_eq_some.mp h with ⟨ie, hie, h1⟩
  rcases Option.bind_eq_some.mp h1 with ⟨sv, hsv, h2⟩
  rcases Option.bind_eq_some.mp h2 with ⟨s0, hs0, h3⟩
  rcases Option.bind_eq_some.mp h3 with ⟨vip, hvip, h4⟩
  rcases Option.bind_eq_some.mp h4 with ⟨subs2, hsubs2, h5⟩
  rcases Option.bind_eq_some.mp h5 with ⟨vnd, hvnd, h6⟩
  have hsubseq : subs2 = subs := by
    rw [hsubs] at hsubs2
    exact (Option.some.inj hsubs2).symm
  subst hsubseq
  have hnd' : nd' = NetworkData.mk vnd (setKey (setKey nd.bgp "ingress_vip"
      (Value.addr vip)) "public_service_cidr" (Value.net s0)) :=
    (Option.some.inj h6).symm
  subst hnd'
  have hsubnodup : (subs2.map Prod.fst).Nodup :=
    (getNetworkSubnets_sublist hsubs).nodup hnodup
  intro t sub hmem
  rcases applyLoop_spec hsubnodup hvnd t sub hmem with ⟨pre, e, hpre, hres, hl⟩
  refine ⟨pre, e, hpre, hres, hl, resolveEntry_keys hres, ?_⟩
  rw [resolveEntry_keys hres]
  by_cases htp : t = "pxe" <;> by_cases hob : t = "oob" <;> simp [htp, hob]

/-- Witness for C10 on the concrete Network Block `ndW`, type `oam`. -/
theorem C10_entry_replacement_witness :
    ∃ pre e, ndW.vlanNetworkData.lookup "oam" = some pre ∧
      resolveEntry offW "oam" subW pre = some e ∧
      ndW2.vlanNetworkData.lookup "oam" = some e ∧
      e.map Prod.fst =
        ["network", "gateway", "reserved_start", "reserved_end"] ++
        (if ("oam" : String) = "pxe" then ["dhcp_start", "dhcp_end"] else []) ++
        ["static_start", "static_end"] ++
        (if ("oam" : String) = "oob" then [] else ["vlan"]) ++ ["routes"] ∧
      "subnet" ∉ e.map Prod.fst :=
  C10_entry_replacement offW ndW ndW2 [("oam", subW)] (by decide) (by decide) (by decide) "oam" subW
    (by decide)
